import Mathlib

/-!
# Fee-share configuration engine: verification of the reference scripts

A shallow embedding of the fee-distribution configuration engine implemented
by the repository's TypeScript reference scripts:

* `launch-with-fee-share` (`launchWithFeeShare` in `create-partner-key.ts`,
  second script of the file): BPS validation, fee-claimer resolution, the
  lookup-table (address-batching) branch, fee-share config creation and the
  terminal launch transaction;
* `createPartnerKey` (first script of `create-partner-key.ts`): idempotent
  partner-key registration;
* `claimAll` (claim-fees script): per-position fee claiming with a
  success/failure report;
* the `createBagsFeeShareConfig` parameter shape documented in the SDK
  methods reference, used for the partner-overlay frame property.

Wallet addresses, PDAs, and mints are modelled as `Nat`; basis points are
`Int` (the TypeScript `number` fields are used only with integer arithmetic
here).  Network and ledger side effects are modelled as an emitted ordered
trace of ledger operations; external lookups (the social-identity
directory, the partner-config account) are explicit function parameters.
-/

namespace BagsEngine

/-- Social providers supported by `getLaunchWalletV2`
(`"twitter" | "kick" | "github"`). -/
inductive SupportedSocialProvider where
  | twitter
  | kick
  | github
deriving DecidableEq, Repr

/-- A fee-claimer request as taken by `launchWithFeeShare`: either a direct
wallet or a social `username`+`provider`, plus a share in basis points. -/
structure FeeClaimer where
  wallet : Option Nat := none
  username : Option String := none
  provider : Option SupportedSocialProvider := none
  bps : Int
deriving DecidableEq, Repr

/-- A resolved fee claimer, as pushed onto `resolvedClaimers`
(`{ user: PublicKey; userBps: number }`). -/
structure ResolvedClaimer where
  user : Nat
  userBps : Int
deriving DecidableEq, Repr

instance : Inhabited ResolvedClaimer := ⟨⟨0, 0⟩⟩

/-- The fold `params.feeClaimers.reduce((sum, fc) => sum + fc.bps, 0)` from
`launchWithFeeShare`. -/
def totalBps (feeClaimers : List FeeClaimer) : Int :=
  feeClaimers.foldl (fun sum fc => sum + fc.bps) 0

/-- The BPS validation step of `launchWithFeeShare`:
`if (totalBps !== 10000) throw new Error(...)`.  This is the only
structural check the script performs on the split. -/
def validateTotalBps (feeClaimers : List FeeClaimer) : Except String Unit :=
  if totalBps feeClaimers ≠ 10000 then
    Except.error "Total BPS must equal 10000"
  else
    Except.ok ()

/-- One step of the resolution loop of `launchWithFeeShare`: a direct
`fc.wallet` is used as-is; otherwise `fc.username`+`fc.provider` are looked
up through `sdk.state.getLaunchWalletV2` (modelled by `dir`, with `none`
for an identity with no linked wallet); otherwise the loop throws
`"Fee claimer must have either wallet or username+provider"`. -/
def resolveOne (dir : String → SupportedSocialProvider → Option Nat)
    (fc : FeeClaimer) : Except String Nat :=
  match fc.wallet with
  | some w => Except.ok w
  | none =>
    match fc.username, fc.provider with
    | some u, some p =>
      match dir u p with
      | some w => Except.ok w
      | none => Except.error "Account not found"
    | _, _ => Except.error "Fee claimer must have either wallet or username+provider"

/-- The `for (const fc of params.feeClaimers)` resolution loop: resolves
each claimer in order and pushes `{ user: wallet, userBps: fc.bps }`.
No other check is performed on the resolved list. -/
def resolveClaimers (dir : String → SupportedSocialProvider → Option Nat) :
    List FeeClaimer → Except String (List ResolvedClaimer)
  | [] => Except.ok []
  | fc :: rest => do
    let w ← resolveOne dir fc
    let tail ← resolveClaimers dir rest
    Except.ok ({ user := w, userBps := fc.bps } :: tail)

/-- Constant `BAGS_FEE_SHARE_V2_MAX_CLAIMERS_NON_LUT = 15` (max claimers
without a lookup table), from the SDK constants reference. -/
def BAGS_FEE_SHARE_V2_MAX_CLAIMERS_NON_LUT : Nat := 15

/-- The batching decision of `launchWithFeeShare`:
`resolvedClaimers.length > BAGS_FEE_SHARE_V2_MAX_CLAIMERS_NON_LUT`. -/
def lutRequired (resolvedClaimers : List ResolvedClaimer) : Bool :=
  decide (BAGS_FEE_SHARE_V2_MAX_CLAIMERS_NON_LUT < resolvedClaimers.length)

/-- The ledger-facing transactions `launchWithFeeShare` submits, in
submission order.  `waitSlots` records the explicit
`waitForSlotsToPass(connection, commitment, 1)` call between the
lookup-table creation transaction and its extend transactions. -/
inductive LedgerOp where
  /-- Sending `lutResult.creationTransaction` via `signAndSendTransaction`. -/
  | createLut
  /-- Calling `waitForSlotsToPass(connection, commitment, n)`. -/
  | waitSlots (n : Nat)
  /-- one `extendTx` of `lutResult.extendTransactions`. -/
  | extendLut
  /-- one Jito bundle of `configResult.bundles`. -/
  | configBundle
  /-- one transaction of `configResult.transactions`. -/
  | configTx
  /-- the final `launchTx` sent via `sendWithJito`. -/
  | launch
deriving DecidableEq, Repr

/-- Result shape of `getConfigCreationLookupTableTransactions`, reduced to
what the submission order depends on: how many extend transactions come
back.  (`lutAddresses` only feeds `additionalLookupTables`.) -/
structure LutResult where
  nExtendTxs : Nat
deriving DecidableEq, Repr

/-- Result shape of `createBagsFeeShareConfig`, reduced to what the
submission order depends on: how many Jito bundles and how many plain
transactions come back. -/
structure ConfigResult where
  nBundles : Nat
  nTxs : Nat
deriving DecidableEq, Repr

/-- Step 3 of `launchWithFeeShare`: if
`resolvedClaimers.length > BAGS_FEE_SHARE_V2_MAX_CLAIMERS_NON_LUT`, send
the LUT creation transaction, wait one slot
(`waitForSlotsToPass(connection, commitment, 1)`), then send every extend
transaction; otherwise no lookup-table operations at all. -/
def lutOps (resolvedClaimers : List ResolvedClaimer) (lutResult : LutResult) :
    List LedgerOp :=
  if lutRequired resolvedClaimers then
    LedgerOp.createLut :: LedgerOp.waitSlots 1 ::
      List.replicate lutResult.nExtendTxs LedgerOp.extendLut
  else
    []

/-- Steps 4 of `launchWithFeeShare`: the `configResult.bundles` are sent
via Jito first, then each of `configResult.transactions` is sent. -/
def configOps (configResult : ConfigResult) : List LedgerOp :=
  List.replicate configResult.nBundles LedgerOp.configBundle ++
    List.replicate configResult.nTxs LedgerOp.configTx

/-- Function `launchWithFeeShare` viewed as the ordered ledger-operation
trace it submits:
validate the BPS total, resolve the fee claimers, then (in this order)
lookup-table operations if required, fee-share config operations, and the
terminal launch transaction.  Metadata creation (step 1) is an off-ledger
upload and emits no ledger operation. -/
def launchWithFeeShare (dir : String → SupportedSocialProvider → Option Nat)
    (feeClaimers : List FeeClaimer) (lutResult : LutResult)
    (configResult : ConfigResult) : Except String (List LedgerOp) := do
  validateTotalBps feeClaimers
  let resolvedClaimers ← resolveClaimers dir feeClaimers
  Except.ok (lutOps resolvedClaimers lutResult ++ configOps configResult ++
    [LedgerOp.launch])

/-- Submission stage of a ledger operation within one run of
`launchWithFeeShare`; the trace is monotone in this stage. -/
def opStage : LedgerOp → Nat
  | LedgerOp.createLut => 0
  | LedgerOp.waitSlots _ => 1
  | LedgerOp.extendLut => 2
  | LedgerOp.configBundle => 3
  | LedgerOp.configTx => 4
  | LedgerOp.launch => 5

/-! ## Partner-key creation (`createPartnerKey`) -/

/-- Result of one `createPartnerKey` call: the returned partner-config PDA
and whether a creation transaction was signed and sent. -/
structure CreatePartnerKeyResult where
  handle : Nat
  sentCreation : Bool
deriving DecidableEq, Repr

/-- Script action `createPartnerKey`: derives the partner-config PDA
(`deriveBagsFeeShareV2PartnerConfigPda`, modelled by the deterministic
`derivePda` parameter), then checks `sdk.partner.getPartnerConfig`
(modelled by `configExists`, the set of wallets whose partner config is
on-chain).  If the config already exists it returns the PDA without
sending anything; otherwise it sends the creation transaction and returns
the PDA.  Returns the result together with the updated on-chain state. -/
def createPartnerKey (derivePda : Nat → Nat) (configExists : Nat → Bool)
    (wallet : Nat) : CreatePartnerKeyResult × (Nat → Bool) :=
  if configExists wallet then
    ({ handle := derivePda wallet, sentCreation := false }, configExists)
  else
    ({ handle := derivePda wallet, sentCreation := true },
      fun w => w == wallet || configExists w)

/-! ## Fee claiming (`claimAll`) -/

/-- A claimable position, reduced to its identity (`baseMint`); the other
fields of `ClaimablePosition` do not influence `claimAll`'s control
flow. -/
structure Position where
  baseMint : Nat
deriving DecidableEq, Repr

/-- The `claimAll` loop: for each position, in order, attempt the claim
(`getClaimTransaction` + sending each returned transaction, collapsed into
the oracle `claimOk`; the whole attempt sits in one `try`).  A caught
failure increments `failCount` and the loop continues with the next
position.  Returns the list of attempts in order (position, outcome) and
the final `(successCount, failCount)` report. -/
def claimAll (claimOk : Position → Bool) :
    List Position → List (Position × Bool) × Nat × Nat
  | [] => ([], 0, 0)
  | p :: rest =>
    let outcome := claimOk p
    let (attempts, s, f) := claimAll claimOk rest
    ((p, outcome) :: attempts,
      if outcome then s + 1 else s,
      if outcome then f else f + 1)

/-! ## Fee-share config parameters and the partner overlay -/

/-- Parameter shape of `sdk.config.createBagsFeeShareConfig` from the SDK
methods reference: the fee-claimer split and the optional partner overlay
(`partner`, `partnerConfig`) are separate fields. -/
structure ConfigParams where
  payer : Nat
  baseMint : Nat
  feeClaimers : List ResolvedClaimer
  partner : Option Nat := none
  partnerConfig : Option Nat := none
  additionalLookupTables : Option (List Nat) := none
deriving DecidableEq, Repr

/-- Attaching the platform's partner overlay to a launch, as in the
skill's "Platform takes 25% via partner key" pattern:
`createBagsFeeShareConfig({ ...config, partner, partnerConfig })` —
the two partner fields are set and nothing else changes. -/
def attachPartnerOverlay (p : ConfigParams) (partnerWallet partnerConfigPda : Nat) :
    ConfigParams :=
  { p with partner := some partnerWallet, partnerConfig := some partnerConfigPda }

/-- Total basis points carried by the `feeClaimers` field of a config
request — the 10,000-bps plan budget. -/
def planBpsSum (p : ConfigParams) : Int :=
  (p.feeClaimers.map ResolvedClaimer.userBps).sum

/-! ## Basic lemmas about the embedded definitions -/

lemma foldl_add_bps (feeClaimers : List FeeClaimer) (a : Int) :
    feeClaimers.foldl (fun sum fc => sum + fc.bps) a =
      a + (feeClaimers.map FeeClaimer.bps).sum := by
  induction feeClaimers generalizing a with
  | nil => simp
  | cons fc rest ih => simp [List.foldl_cons, ih, add_assoc]

/-- The script's `reduce` accumulator equals the sum of the mapped
`bps` values. -/
lemma totalBps_eq_sum (feeClaimers : List FeeClaimer) :
    totalBps feeClaimers = (feeClaimers.map FeeClaimer.bps).sum := by
  simpa using foldl_add_bps feeClaimers 0

lemma validateTotalBps_ok_iff (feeClaimers : List FeeClaimer) :
    validateTotalBps feeClaimers = Except.ok () ↔
      (feeClaimers.map FeeClaimer.bps).sum = 10000 := by
  unfold validateTotalBps
  rw [totalBps_eq_sum]
  by_cases h : (feeClaimers.map FeeClaimer.bps).sum = 10000 <;> simp [h]

end BagsEngine

namespace BagsEngine

/-! ## Claim C1 -/

/-- C1.  For every recipient sequence of 1 to 100 entries with positive
integer shares, the split validation step (`totalBps !== 10000` check of
`launchWithFeeShare`) accepts the sequence iff the shares sum to exactly
10000; no implicit remainder is assigned to the creator. -/
theorem split_validation_accepts_iff_sum_10000
    (feeClaimers : List FeeClaimer)
    (hlo : 1 ≤ feeClaimers.length) (hhi : feeClaimers.length ≤ 100)
    (hpos : ∀ fc ∈ feeClaimers, 0 < fc.bps) :
    validateTotalBps feeClaimers = Except.ok () ↔
      (feeClaimers.map FeeClaimer.bps).sum = 10000 :=
  validateTotalBps_ok_iff feeClaimers

/-- Witness for C1 at the concrete split 4000/3000/3000. -/
theorem split_validation_accepts_iff_sum_10000_witness :
    validateTotalBps
        [{ wallet := some 1, bps := 4000 }, { wallet := some 2, bps := 3000 },
          { wallet := some 3, bps := 3000 }] = Except.ok () ↔
      (([{ wallet := some 1, bps := 4000 }, { wallet := some 2, bps := 3000 },
          { wallet := some 3, bps := 3000 }] : List FeeClaimer).map
          FeeClaimer.bps).sum = 10000 :=
  split_validation_accepts_iff_sum_10000 _ (by decide) (by decide)
    (by intro fc hfc; fin_cases hfc <;> decide)

/-! ## Claim C6 -/

/-- C6 counterexample.  A recipient sequence containing a zero-share entry
but summing to exactly 10000 is accepted by the split validation step, not
rejected: the script only checks the total. -/
theorem zero_share_accepted_cex :
    validateTotalBps
        [{ wallet := some 1, bps := 10000 }, { wallet := some 2, bps := 0 }] =
      Except.ok () := by
  rfl

/-- C6 as amended.  The split validation step checks only the total: a
sequence containing a zero or negative `bps` entry is accepted exactly when
the shares sum to 10000 — such entries are neither rejected nor dropped. -/
theorem split_validation_ignores_nonpositive_shares
    (feeClaimers : List FeeClaimer)
    (hnp : ∃ fc ∈ feeClaimers, fc.bps ≤ 0) :
    validateTotalBps feeClaimers = Except.ok () ↔
      (feeClaimers.map FeeClaimer.bps).sum = 10000 :=
  validateTotalBps_ok_iff feeClaimers

/-- Witness for amended C6: a zero-share entry alongside a 10000-bps entry
is accepted. -/
theorem split_validation_ignores_nonpositive_shares_witness :
    validateTotalBps
        [{ wallet := some 1, bps := 10000 }, { wallet := some 2, bps := 0 }] =
        Except.ok () ↔
      (([{ wallet := some 1, bps := 10000 }, { wallet := some 2, bps := 0 }] :
          List FeeClaimer).map FeeClaimer.bps).sum = 10000 :=
  split_validation_ignores_nonpositive_shares _
    ⟨{ wallet := some 2, bps := 0 }, by decide, by decide⟩

/-! ## Claim C2 -/

/-- C2.  Batching (lookup-table creation) is required iff the resolved
recipient count strictly exceeds 15: a set of exactly 15 recipients never
triggers the lookup-table branch and a set of 16 always does, and the
branch emits lookup-table operations exactly when required. -/
theorem batching_iff_more_than_15 :
    (∀ resolvedClaimers : List ResolvedClaimer,
      lutRequired resolvedClaimers = decide (15 < resolvedClaimers.length)) ∧
    lutRequired (List.replicate 15 { user := 0, userBps := 0 }) = false ∧
    lutRequired (List.replicate 16 { user := 0, userBps := 0 }) = true ∧
    (∀ (resolvedClaimers : List ResolvedClaimer) (lutResult : LutResult),
      lutOps resolvedClaimers lutResult ≠ [] ↔
        lutRequired resolvedClaimers = true) := by
  refine ⟨fun _ => rfl, by decide, by decide, fun rc lr => ?_⟩
  unfold lutOps
  cases h : lutRequired rc <;> simp [h]

/-! ## Claim C7 -/

/-- C7.  A failure while claiming one position does not abort the rest: in
any `claimAll` run, every position is attempted in order regardless of
failures, and the final report counts successes and failures per position;
in particular over 3 positions with position 2 failing the report shows 2
succeeded and 1 failed. -/
theorem claim_all_isolates_failures :
    (∀ (claimOk : Position → Bool) (positions : List Position),
      (claimAll claimOk positions).1.map Prod.fst = positions ∧
      (claimAll claimOk positions).2.1 = (positions.filter claimOk).length ∧
      (claimAll claimOk positions).2.2 =
        (positions.filter (fun p => !claimOk p)).length ∧
      (claimAll claimOk positions).2.1 + (claimAll claimOk positions).2.2 =
        positions.length) ∧
    claimAll (fun p => !(p.baseMint == 2)) [⟨1⟩, ⟨2⟩, ⟨3⟩] =
      ([(⟨1⟩, true), (⟨2⟩, false), (⟨3⟩, true)], 2, 1) := by
  refine ⟨fun claimOk positions => ?_, by decide⟩
  induction positions with
  | nil => simp [claimAll]
  | cons p rest ih =>
    obtain ⟨ih₁, ih₂, ih₃, ih₄⟩ := ih
    cases h : claimOk p <;>
      simp [claimAll, h, ih₁, ih₂, ih₃] <;> omega

/-! ## Claim C8 -/

/-- C8.  Attaching the partner overlay to a fee-share config request never
changes the recipients: the `feeClaimers` array, its basis-point values,
and the plan's 10,000-bps budget sum are identical with and without the
overlay; only the separately-accounted `partner`/`partnerConfig` fields are
set. -/
theorem overlay_preserves_recipients (p : ConfigParams)
    (partnerWallet partnerConfigPda : Nat) :
    (attachPartnerOverlay p partnerWallet partnerConfigPda).feeClaimers =
        p.feeClaimers ∧
    (attachPartnerOverlay p partnerWallet partnerConfigPda).feeClaimers.map
        ResolvedClaimer.userBps = p.feeClaimers.map ResolvedClaimer.userBps ∧
    planBpsSum (attachPartnerOverlay p partnerWallet partnerConfigPda) =
        planBpsSum p ∧
    (attachPartnerOverlay p partnerWallet partnerConfigPda).partner =
        some partnerWallet ∧
    (attachPartnerOverlay p partnerWallet partnerConfigPda).partnerConfig =
        some partnerConfigPda :=
  ⟨rfl, rfl, rfl, rfl, rfl⟩

/-! ## Claim C9 -/

/-- C9.  Creating a partner key a second time for the same wallet is
idempotent: when the partner config already exists on-chain, the call sends
no creation transaction, returns the same derived handle as the first call,
and leaves the on-chain state unchanged. -/
theorem create_partner_key_idempotent (derivePda : Nat → Nat)
    (configExists : Nat → Bool) (wallet : Nat) :
    (createPartnerKey derivePda
        (createPartnerKey derivePda configExists wallet).2 wallet).1.handle =
      (createPartnerKey derivePda configExists wallet).1.handle ∧
    (createPartnerKey derivePda
        (createPartnerKey derivePda configExists wallet).2 wallet).1.sentCreation =
      false ∧
    (createPartnerKey derivePda
        (createPartnerKey derivePda configExists wallet).2 wallet).2 =
      (createPartnerKey derivePda configExists wallet).2 := by
  cases h : configExists wallet <;> simp [createPartnerKey, h]

/-! ## Claim C10 -/

/-- C10.  Identity resolution preserves the fee-claimer list's length,
order and shares: a successful `resolveClaimers` run pairs the input and
output lists positionally, the resolved entry's `userBps` equals the input
entry's `bps`, and an entry that already carries a wallet keeps exactly
that wallet. -/
theorem resolution_preserves_entries
    (dir : String → SupportedSocialProvider → Option Nat)
    (feeClaimers : List FeeClaimer) (resolvedClaimers : List ResolvedClaimer)
    (h : resolveClaimers dir feeClaimers = Except.ok resolvedClaimers) :
    resolvedClaimers.length = feeClaimers.length ∧
    List.Forall₂
      (fun (fc : FeeClaimer) (r : ResolvedClaimer) =>
        r.userBps = fc.bps ∧ ∀ w, fc.wallet = some w → r.user = w)
      feeClaimers resolvedClaimers := by
  induction feeClaimers generalizing resolvedClaimers with
  | nil =>
    simp only [resolveClaimers, Except.ok.injEq] at h
    subst h
    exact ⟨rfl, List.Forall₂.nil⟩
  | cons fc rest ih =>
    simp only [resolveClaimers] at h
    cases hw : resolveOne dir fc with
    | error e => rw [hw] at h; simp [Bind.bind, Except.bind] at h
    | ok w =>
      rw [hw] at h
      cases ht : resolveClaimers dir rest with
      | error e => rw [ht] at h; simp [Bind.bind, Except.bind] at h
      | ok tail =>
        rw [ht] at h
        simp only [Bind.bind, Except.bind, Except.ok.injEq] at h
        subst h
        obtain ⟨ihlen, ihall⟩ := ih tail ht
        refine ⟨by simp [ihlen], List.Forall₂.cons ⟨rfl, ?_⟩ ihall⟩
        intro w' hw'
        unfold resolveOne at hw
        rw [hw'] at hw
        simpa using hw.symm

/-- Witness for C10: one direct-wallet entry and one social entry resolved
through a concrete directory. -/
theorem resolution_preserves_entries_witness :
    ([{ user := 7, userBps := 6000 }, { user := 42, userBps := 4000 }] :
        List ResolvedClaimer).length =
      ([{ wallet := some 7, bps := 6000 },
        { username := some "alice", provider := some SupportedSocialProvider.twitter,
          bps := 4000 }] : List FeeClaimer).length ∧
    List.Forall₂
      (fun (fc : FeeClaimer) (r : ResolvedClaimer) =>
        r.userBps = fc.bps ∧ ∀ w, fc.wallet = some w → r.user = w)
      [{ wallet := some 7, bps := 6000 },
        { username := some "alice", provider := some SupportedSocialProvider.twitter,
          bps := 4000 }]
      [{ user := 7, userBps := 6000 }, { user := 42, userBps := 4000 }] :=
  resolution_preserves_entries
    (fun u _ => if u = "alice" then some 42 else none) _ _ (by rfl)

/-! ## Claim C5 -/

/-- C5 counterexample.  Two distinct entries of the recipient list carrying
the same wallet address do not make the registration fail: the whole
`launchWithFeeShare` run succeeds and submits its ledger operations — there
is no duplicate-address check and no `DuplicateRecipient` error in the
script. -/
theorem duplicate_recipient_no_failure_cex :
    launchWithFeeShare (fun _ _ => none)
        [{ wallet := some 7, bps := 5000 }, { wallet := some 7, bps := 5000 }]
        { nExtendTxs := 0 } { nBundles := 0, nTxs := 1 } =
      Except.ok [LedgerOp.configTx, LedgerOp.launch] := by
  rfl

/-- C5 as amended.  After resolution no duplicate-address check is
performed: two entries resolving to the same wallet address are both kept,
in order, as separate entries of the resolved list (not merged), and the
registration proceeds to submit all its ledger operations instead of
failing with a `DuplicateRecipient` error. -/
theorem duplicates_kept_not_merged
    (dir : String → SupportedSocialProvider → Option Nat) (w : Nat)
    (b₁ b₂ : Int) (lutResult : LutResult) (configResult : ConfigResult)
    (hsum : b₁ + b₂ = 10000) :
    resolveClaimers dir
        [{ wallet := some w, bps := b₁ }, { wallet := some w, bps := b₂ }] =
      Except.ok
        [{ user := w, userBps := b₁ }, { user := w, userBps := b₂ }] ∧
    launchWithFeeShare dir
        [{ wallet := some w, bps := b₁ }, { wallet := some w, bps := b₂ }]
        lutResult configResult =
      Except.ok (configOps configResult ++ [LedgerOp.launch]) := by
  have hv : validateTotalBps
      [{ wallet := some w, bps := b₁ }, { wallet := some w, bps := b₂ }] =
      Except.ok () := by
    simp only [validateTotalBps, totalBps, List.foldl_cons, List.foldl_nil]
    rw [if_neg (by omega)]
  refine ⟨rfl, ?_⟩
  simp [launchWithFeeShare, hv, Bind.bind, Except.bind, resolveClaimers,
    resolveOne, lutOps, lutRequired, BAGS_FEE_SHARE_V2_MAX_CLAIMERS_NON_LUT]

/-- Witness for amended C5 at the concrete duplicated wallet 7 with a
5000/5000 split. -/
theorem duplicates_kept_not_merged_witness :
    resolveClaimers (fun _ _ => none)
        [{ wallet := some 7, bps := 5000 }, { wallet := some 7, bps := 5000 }] =
      Except.ok
        [{ user := 7, userBps := 5000 }, { user := 7, userBps := 5000 }] ∧
    launchWithFeeShare (fun _ _ => none)
        [{ wallet := some 7, bps := 5000 }, { wallet := some 7, bps := 5000 }]
        { nExtendTxs := 0 } { nBundles := 0, nTxs := 1 } =
      Except.ok
        (configOps { nBundles := 0, nTxs := 1 } ++ [LedgerOp.launch]) :=
  duplicates_kept_not_merged (fun _ _ => none) 7 5000 5000
    { nExtendTxs := 0 } { nBundles := 0, nTxs := 1 } (by decide)

/-! ## Trace-shape lemmas for the ordering claims -/

lemma launchWithFeeShare_ok_shape
    {dir : String → SupportedSocialProvider → Option Nat}
    {feeClaimers : List FeeClaimer} {lutResult : LutResult}
    {configResult : ConfigResult} {ops : List LedgerOp}
    (hok : launchWithFeeShare dir feeClaimers lutResult configResult =
      Except.ok ops) :
    ∃ resolvedClaimers,
      resolveClaimers dir feeClaimers = Except.ok resolvedClaimers ∧
      ops = lutOps resolvedClaimers lutResult ++ configOps configResult ++
        [LedgerOp.launch] := by
  unfold launchWithFeeShare at hok
  cases hv : validateTotalBps feeClaimers with
  | error e => rw [hv] at hok; simp [Bind.bind, Except.bind] at hok
  | ok u =>
    cases u
    rw [hv] at hok
    cases hr : resolveClaimers dir feeClaimers with
    | error e => rw [hr] at hok; simp [Bind.bind, Except.bind] at hok
    | ok resolvedClaimers =>
      rw [hr] at hok
      simp only [Bind.bind, Except.bind, Except.ok.injEq] at hok
      exact ⟨resolvedClaimers, rfl, hok.symm⟩

lemma mem_configOps {x : LedgerOp} {configResult : ConfigResult}
    (hx : x ∈ configOps configResult) :
    x = LedgerOp.configBundle ∨ x = LedgerOp.configTx := by
  unfold configOps at hx
  rcases List.mem_append.mp hx with h | h
  · exact Or.inl (List.eq_of_mem_replicate h)
  · exact Or.inr (List.eq_of_mem_replicate h)

lemma opStage_le_two_of_mem_lutOps {x : LedgerOp}
    {resolvedClaimers : List ResolvedClaimer} {lutResult : LutResult}
    (hx : x ∈ lutOps resolvedClaimers lutResult) : opStage x ≤ 2 := by
  unfold lutOps at hx
  by_cases h : lutRequired resolvedClaimers = true
  · rw [if_pos h] at hx
    simp only [List.mem_cons] at hx
    rcases hx with h' | h' | h'
    · rw [h']; decide
    · rw [h']; decide
    · rw [List.eq_of_mem_replicate h']; decide
  · rw [if_neg h] at hx
    simp at hx

lemma pairwise_stage_replicate (n : Nat) (a : LedgerOp) :
    List.Pairwise (fun x y => opStage x ≤ opStage y) (List.replicate n a) := by
  induction n with
  | zero => simp
  | succ n ih =>
    rw [List.replicate_succ, List.pairwise_cons]
    exact ⟨fun b hb => le_of_eq (by rw [List.eq_of_mem_replicate hb]), ih⟩

lemma pairwise_stage_configOps (configResult : ConfigResult) :
    List.Pairwise (fun x y => opStage x ≤ opStage y) (configOps configResult) := by
  unfold configOps
  rw [List.pairwise_append]
  refine ⟨pairwise_stage_replicate _ _, pairwise_stage_replicate _ _, ?_⟩
  intro a ha b hb
  rw [List.eq_of_mem_replicate ha, List.eq_of_mem_replicate hb]
  decide

lemma pairwise_stage_lutOps (resolvedClaimers : List ResolvedClaimer)
    (lutResult : LutResult) :
    List.Pairwise (fun x y => opStage x ≤ opStage y)
      (lutOps resolvedClaimers lutResult) := by
  unfold lutOps
  cases h : lutRequired resolvedClaimers
  · simp
  · simp only [if_pos]
    rw [List.pairwise_cons]
    refine ⟨fun b _ => Nat.zero_le _, ?_⟩
    rw [List.pairwise_cons]
    refine ⟨fun b hb => ?_, pairwise_stage_replicate _ _⟩
    rw [List.eq_of_mem_replicate hb]
    decide

/-! ## Claim C3 -/

/-- C3.  In every batched run, no lookup-table extend transaction is
submitted before the explicit one-slot settling wait
(`waitForSlotsToPass(connection, commitment, 1)`), which itself follows the
lookup-table creation transaction: the script enforces the wait itself
rather than submitting early. -/
theorem extend_only_after_settling_wait
    (dir : String → SupportedSocialProvider → Option Nat)
    (feeClaimers : List FeeClaimer) (lutResult : LutResult)
    (configResult : ConfigResult) (ops : List LedgerOp) (j : Nat)
    (hok : launchWithFeeShare dir feeClaimers lutResult configResult =
      Except.ok ops)
    (hj : ops[j]? = some LedgerOp.extendLut) :
    ∃ i k, i < k ∧ k < j ∧ ops[i]? = some LedgerOp.createLut ∧
      ops[k]? = some (LedgerOp.waitSlots 1) := by
  obtain ⟨rc, hrc, hshape⟩ := launchWithFeeShare_ok_shape hok
  subst hshape
  cases hreq : lutRequired rc with
  | false =>
    exfalso
    have hmem := List.getElem?_mem hj
    simp [lutOps, hreq, configOps, List.mem_replicate] at hmem
  | true =>
    have hshape2 : lutOps rc lutResult = LedgerOp.createLut ::
        LedgerOp.waitSlots 1 ::
        List.replicate lutResult.nExtendTxs LedgerOp.extendLut := by
      simp [lutOps, hreq]
    have hj2 : 1 < j := by
      rcases j with _ | _ | j
      · rw [hshape2] at hj; simp [List.cons_append] at hj
      · rw [hshape2] at hj; simp [List.cons_append] at hj
      · omega
    refine ⟨0, 1, by omega, hj2, ?_, ?_⟩ <;>
      rw [hshape2] <;> simp [List.cons_append]

/-- Witness for C3: a 16-claimer launch whose trace interposes the one-slot
wait between the creation transaction and the extend transaction found at
index 2. -/
theorem extend_only_after_settling_wait_witness :
    ∃ i k, i < k ∧ k < 2 ∧
      ([LedgerOp.createLut, LedgerOp.waitSlots 1, LedgerOp.extendLut,
        LedgerOp.configTx, LedgerOp.launch][i]? = some LedgerOp.createLut) ∧
      ([LedgerOp.createLut, LedgerOp.waitSlots 1, LedgerOp.extendLut,
        LedgerOp.configTx, LedgerOp.launch][k]? =
        some (LedgerOp.waitSlots 1)) :=
  extend_only_after_settling_wait (fun _ _ => none)
    ((List.range 16).map fun i => { wallet := some i, bps := 625 })
    { nExtendTxs := 1 } { nBundles := 0, nTxs := 1 } _ 2 (by rfl) (by rfl)

/-! ## Claim C4 -/

/-- C4.  Every successful `launchWithFeeShare` run submits its ledger
operations in stage order — lookup-table creation, settling wait,
lookup-table extensions, fee-share config operations, asset launch — and
the launch transaction is the last operation, submitted only after all
config operations. -/
theorem launch_ops_ordered
    (dir : String → SupportedSocialProvider → Option Nat)
    (feeClaimers : List FeeClaimer) (lutResult : LutResult)
    (configResult : ConfigResult) (ops : List LedgerOp)
    (hok : launchWithFeeShare dir feeClaimers lutResult configResult =
      Except.ok ops) :
    List.Pairwise (fun a b => opStage a ≤ opStage b) ops ∧
    ops.getLast? = some LedgerOp.launch := by
  obtain ⟨rc, hrc, hshape⟩ := launchWithFeeShare_ok_shape hok
  subst hshape
  constructor
  · rw [List.append_assoc, List.pairwise_append]
    refine ⟨pairwise_stage_lutOps rc lutResult, ?_, ?_⟩
    · rw [List.pairwise_append]
      refine ⟨pairwise_stage_configOps _, by simp, ?_⟩
      intro a ha b hb
      simp only [List.mem_singleton] at hb
      subst hb
      rcases mem_configOps ha with h | h <;> subst h <;> decide
    · intro a ha b hb
      have h2 := opStage_le_two_of_mem_lutOps ha
      rcases List.mem_append.mp hb with h | h
      · rcases mem_configOps h with h' | h' <;> subst h' <;>
          exact le_trans h2 (by decide)
      · simp only [List.mem_singleton] at h
        subst h
        exact le_trans h2 (by decide)
  · exact List.getLast?_concat _

/-- Witness for C4: the trace of a concrete 16-claimer launch is
stage-ordered and ends with the launch transaction. -/
theorem launch_ops_ordered_witness :
    List.Pairwise (fun a b => opStage a ≤ opStage b)
      [LedgerOp.createLut, LedgerOp.waitSlots 1, LedgerOp.extendLut,
        LedgerOp.configTx, LedgerOp.launch] ∧
    ([LedgerOp.createLut, LedgerOp.waitSlots 1, LedgerOp.extendLut,
      LedgerOp.configTx, LedgerOp.launch] : List LedgerOp).getLast? =
      some LedgerOp.launch :=
  launch_ops_ordered (fun _ _ => none)
    ((List.range 16).map fun i => { wallet := some i, bps := 625 })
    { nExtendTxs := 1 } { nBundles := 0, nTxs := 1 } _ (by rfl)

end BagsEngine
